import Mathlib

/-!
Verification of the immich-sync core against its specification.

The Go sources are shallowly embedded: machine integers (int64) become
unbounded Int (overflow never matters at the values these functions see,
noted per definition where relevant), time.Time / time.Duration values
become Int nanosecond or millisecond counts, the zero time.Time becomes
`none`, fallible calls return Except/Option, and network effects become
explicit oracle functions passed as arguments.
-/

namespace ImmichSync

/-! ## Go standard-library helpers -/

/-- Digit-accumulation loop of Go strconv.ParseInt (base 10): all characters
must be decimal digits, the empty digit string is rejected. -/
def digitsToNat : List Char → Option Nat
  | [] => none
  | cs => cs.foldlM (fun acc c =>
      if c.isDigit then some (acc * 10 + (c.toNat - 48)) else none) 0

/-- Models Go strconv.ParseInt(s, 10, 64): optional leading sign, decimal
digits, result must fit in int64. -/
def goParseInt64 (s : String) : Option Int :=
  let cs := s.toList
  let signDigits : Bool × List Char :=
    match cs with
    | '-' :: rest => (true, rest)
    | '+' :: rest => (false, rest)
    | _ => (false, cs)
  match digitsToNat signDigits.2 with
  | none => none
  | some n =>
    let v : Int := if signDigits.1 then -(n : Int) else (n : Int)
    if -(2 ^ 63) ≤ v ∧ v < 2 ^ 63 then some v else none

/-! ## Scraper data model (pkg/googlephotos/scraper.go)

A generic decoded JSON value as produced by Go encoding/json into
interface\x7b\x7d. The scraper reads JSON numbers only through int64
conversion (`extractInt`), so `num` carries the int64 value of the decoded
number; values that are neither strings, numbers nor arrays are collapsed
into `other` because the scraper never inspects them. -/
inductive JVal where
  | str (s : String)
  | num (n : Int)
  | arr (elems : List JVal)
  | other
deriving Repr

/-- extractInt (scraper.go:605-615): JSON strings are parsed with
strconv.ParseInt, JSON numbers (float64) are converted to int64. -/
def extractInt : JVal → Option Int
  | .str s => goParseInt64 s
  | .num n => some n
  | _ => none

/-- normalizeTimestamp (scraper.go:618-626): converts epoch timestamps in
various units to milliseconds. -/
def normalizeTimestamp (t : Int) : Int :=
  if t > 10 ^ 15 then Int.tdiv t 1000
  else if t > 0 ∧ t < 10 ^ 10 then t * 1000
  else t

/-- The validity window of extractTimestamp (scraper.go:884, 891):
`t > 946684800000 && time.UnixMilli(t).Before(now.Add(24*time.Hour))`.
time.Before compares at nanosecond precision, so with `nowNs` the current
Unix time in nanoseconds the test is exactly
`946684800000 < t` and `t * 10^6 < nowNs + 24h`. -/
def tsValid (t : Int) (nowNs : Int) : Bool :=
  decide (946684800000 < t) && decide (t * 1000000 < nowNs + 86400000000000)

/-- Normalize a raw extracted integer and keep it only when it passes the
validity window — the body shared by both candidate checks of
extractTimestamp. -/
def candFilter (t0 : Int) (nowNs : Int) : List Int :=
  let t := normalizeTimestamp t0
  if tsValid t nowNs then [t] else []

/-- Candidate taken from the head of a sub-array at the current position
(scraper.go:881-888). -/
def subArrayCand (v : JVal) (nowNs : Int) : List Int :=
  match v with
  | .arr (h :: _) =>
    match extractInt h with
    | some t0 => candFilter t0 nowNs
    | none => []
  | _ => []

/-- Candidate taken from a direct numeric value at the current position
(scraper.go:889-894). A JSON array is never a string or number, so the two
checks per position are mutually exclusive, as in the source. -/
def directCand (v : JVal) (nowNs : Int) : List Int :=
  match extractInt v with
  | some t0 => candFilter t0 nowNs
  | none => []

/-- The candidate-collection loop of extractTimestamp (scraper.go:880-895):
positions 2 onward, per position first the sub-array head then the direct
value. -/
def timestampCandidates (itemArr : List JVal) (nowNs : Int) : List Int :=
  (itemArr.drop 2).flatMap fun v => subArrayCand v nowNs ++ directCand v nowNs

/-- extractTimestamp (scraper.go:875-910). Returns the chosen capture time
in Unix milliseconds; `none` models the zero time.Time returned when no
candidate passes validation. The fold is the source's
`best := candidates[0]; for c in candidates[1:] if c < best then best = c`. -/
def extractTimestamp (itemArr : List JVal) (nowNs : Int) : Option Int :=
  match timestampCandidates itemArr nowNs with
  | [] => none
  | c :: rest => some (rest.foldl (fun best x => if x < best then x else best) c)

/-- One scraped media item (scraper.go:386-395). TakenAt is the capture
time in Unix milliseconds, `none` for the zero time.Time. The Uploader and
IsVideo fields are never set by the parser and are omitted. -/
structure Photo where
  ID : String
  URL : String
  Width : Int := 0
  Height : Int := 0
  TakenAt : Option Int := none
  Description : String := ""
deriving DecidableEq, Repr

/-- The description scan of parsePhotoItems (scraper.go:658-664): first
non-empty string among positions 3 onward. -/
def firstDescription : List JVal → String
  | [] => ""
  | .str d :: rest => if d ≠ "" then d else firstDescription rest
  | _ :: rest => firstDescription rest

/-- Parse of a single raw item (body of the loop of parsePhotoItems,
scraper.go:631-675): requires an array of length at least 2 whose position 1
is a non-empty array; ID from position 0 if a string, URL from the media
array's position 0, width/height from its positions 1-2 when present and
numeric; the item is kept only when the URL is non-empty, and is otherwise
dropped without error. -/
def parsePhotoItem (item : JVal) (nowNs : Int) : List Photo :=
  match item with
  | .arr itemArr =>
    match itemArr with
    | a0 :: a1 :: _ =>
      let id := match a0 with | .str s => s | _ => ""
      match a1 with
      | .arr (m0 :: mrest) =>
        let url := match m0 with | .str s => s | _ => ""
        let wh : Int × Int :=
          match mrest with
          | v1 :: v2 :: _ =>
            ((match v1 with | .num n => n | _ => 0),
             (match v2 with | .num n => n | _ => 0))
          | _ => (0, 0)
        if url ≠ "" then
          [{ ID := id, URL := url, Width := wh.1, Height := wh.2,
             TakenAt := extractTimestamp itemArr nowNs,
             Description := firstDescription (itemArr.drop 3) }]
        else []
      | _ => []
    | _ => []
  | _ => []

/-- parsePhotoItems (scraper.go:629-679). -/
def parsePhotoItems (list : List JVal) (nowNs : Int) : List Photo :=
  list.flatMap (parsePhotoItem · nowNs)

/-- The loop of deduplicatePhotos (scraper.go:861-872), with the `seen` map
modelled as the list of IDs inserted so far. -/
def dedupGo : List Photo → List String → List Photo
  | [], _ => []
  | p :: rest, seen =>
    if p.ID ≠ "" ∧ p.ID ∉ seen then p :: dedupGo rest (p.ID :: seen)
    else dedupGo rest seen

/-- deduplicatePhotos (scraper.go:861-872): keeps the first occurrence of
each non-empty ID, in input order. -/
def deduplicatePhotos (photos : List Photo) : List Photo :=
  dedupGo photos []

/-! ## Pagination loop of ScrapeAlbum (scraper.go:551-592)

The network call fetchNextPage is abstracted as an oracle from the current
continuation token to either a failure or (photos of the page, next token).
The loop body: stop on error keeping the photos so far, stop on an empty
page, otherwise append and continue with the new token; the loop header
stops when the token is empty or the page ceiling is reached. -/

/-- The page ceiling `const maxPages = 500` (scraper.go:575). -/
def maxPages : Nat := 500

/-- The pagination loop with explicit remaining-page fuel; also returns the
number of page fetches performed. -/
def paginateLoop (fetch : String → Except Unit (List Photo × String)) :
    Nat → String → List Photo → List Photo × Nat
  | 0, _, photos => (photos, 0)
  | fuel + 1, token, photos =>
    if token = "" then (photos, 0)
    else
      match fetch token with
      | .error _ => (photos, 1)
      | .ok (next, nextTok) =>
        if next = [] then (photos, 1)
        else
          let r := paginateLoop fetch fuel nextTok (photos ++ next)
          (r.1, r.2 + 1)

/-- The pagination phase of ScrapeAlbum: at most maxPages fetches starting
from the first continuation token, accumulating onto the first page's
photos. -/
def paginate (fetch : String → Except Unit (List Photo × String))
    (token : String) (photos : List Photo) : List Photo × Nat :=
  paginateLoop fetch maxPages token photos

/-! ## HTTP transport retry (pkg/googlephotos client, doWithRetry) -/

/-- An HTTP response as consumed by doWithRetry: the status code, and the
Retry-After backoff in nanoseconds when the header is present and parseable
(the value of `time.ParseDuration(retryAfter + "s")`; absent or unparseable
headers are `none`). -/
structure HttpResp where
  status : Nat
  retryAfterNs : Option Int
deriving DecidableEq, Repr

/-- `maxRetries = 5`. -/
def maxRetries : Nat := 5

/-- `baseBackoff = 5 * time.Second`, in nanoseconds. -/
def baseBackoffNs : Int := 5000000000

/-- Sleep chosen after a 429 at 0-based loop index i:
`sleepTime := baseBackoff * time.Duration(i+1)` overridden by a parseable
Retry-After header. -/
def backoffSleep (r : HttpResp) (i : Nat) : Int :=
  match r.retryAfterNs with
  | some v => v
  | none => baseBackoffNs * ((i : Int) + 1)

/-- The retry loop of doWithRetry. `responses i` is the outcome of the i-th
attempt (`.error` models a transport error from client.Do, which returns
immediately). `last` is the response left in the loop variable from the
previous iteration. Returns the response the call returns (`.ok` carries a
nil Go error; `none` inside only when the loop never ran) together with the
list of sleeps performed, in order, in nanoseconds. -/
def doWithRetryLoop (responses : Nat → Except String HttpResp) :
    Nat → Nat → Option HttpResp → Except String (Option HttpResp) × List Int
  | _, 0, last => (.ok last, [])
  | i, fuel + 1, _ =>
    match responses i with
    | .error e => (.error e, [])
    | .ok r =>
      if r.status ≠ 429 then (.ok (some r), [])
      else
        let rec' := doWithRetryLoop responses (i + 1) fuel (some r)
        (rec'.1, backoffSleep r i :: rec'.2)

/-- doWithRetry (part_003:75-107): up to maxRetries attempts; a non-429
response returns immediately; each 429 is followed by a sleep; when all
attempts are 429 the last 429 response is returned with a nil error. -/
def doWithRetry (responses : Nat → Except String HttpResp) :
    Except String (Option HttpResp) × List Int :=
  doWithRetryLoop responses 0 maxRetries none

/-! ## Immich client: AddAssetsToAlbum chunking (pkg/immich/client.go:126-143)

The PUT request per chunk is abstracted as an oracle from the chunk to
`none` (success) or `some e` (the request error, returned immediately). -/

/-- `const batchSize = 50` (client.go:127). -/
def batchSize : Nat := 50

/-- The chunking loop of AddAssetsToAlbum: i advances by batchSize, the
chunk is assetIds[i:min(i+batchSize, len)]. Also returns the chunks sent,
in order. -/
def addAssetsLoop (req : List String → Option String) :
    List String → Option String × List (List String)
  | [] => (none, [])
  | a :: rest =>
    let chunk := (a :: rest).take batchSize
    match req chunk with
    | some e => (some e, [chunk])
    | none =>
      let r := addAssetsLoop req ((a :: rest).drop batchSize)
      (r.1, chunk :: r.2)
termination_by ids => ids.length
decreasing_by simp [List.length_drop, batchSize]; omega

/-- AddAssetsToAlbum (client.go:126-143). -/
def AddAssetsToAlbum (req : List String → Option String)
    (assetIds : List String) : Option String × List (List String) :=
  addAssetsLoop req assetIds

/-! ## Progress tracking: ETA (progress package, formatETA) -/

/-- Nanoseconds per second; time.Duration arithmetic is int64 nanosecond
arithmetic, embedded as Int (Go's overflow guards in Duration.Round are not
modelled; they only differ within one second of the int64 extremes). -/
def nsPerSecond : Int := 1000000000

/-- Go time.Duration.Round(time.Second): round to the nearest second, with
halves rounded away from zero. -/
def durRoundSecond (d : Int) : Int :=
  let r := Int.tmod d nsPerSecond
  if d < 0 then
    let r' := -r
    if r' + r' < nsPerSecond then d + r' else d - (nsPerSecond - r')
  else
    if r + r < nsPerSecond then d - r else d + (nsPerSecond - r)

/-- formatDuration (progress:230-243): short human-readable rendering;
int(d.Seconds()) and the like are exact integer divisions because d is a
whole number of seconds after rounding, and Go's float-to-int conversion
truncates toward zero, matching Int.tdiv. -/
def formatDuration (d0 : Int) : String :=
  let d := durRoundSecond d0
  if d < 60 * nsPerSecond then
    toString (Int.tdiv d nsPerSecond) ++ "s"
  else if d < 3600 * nsPerSecond then
    let m := Int.tdiv d (60 * nsPerSecond)
    let s := Int.tmod (Int.tdiv d nsPerSecond) 60
    toString m ++ "m " ++ toString s ++ "s"
  else
    let h := Int.tdiv d (3600 * nsPerSecond)
    let m := Int.tmod (Int.tdiv d (60 * nsPerSecond)) 60
    toString h ++ "h " ++ toString m ++ "m"

/-- formatETA (progress:187-195). processed and total are Go ints, elapsed
a Duration in nanoseconds; `elapsed / time.Duration(processed)` is int64
division, truncating toward zero. -/
def formatETA (processed total : Int) (elapsed : Int) : String :=
  if processed = 0 then "calculating..."
  else
    let remaining := total - processed
    let timePerItem := Int.tdiv elapsed processed
    let eta := timePerItem * remaining
    formatDuration eta

/-! ## Sync orchestrator: worker-pool sizing and per-item processing
(pkg/app/app.go) -/

/-- Worker-pool sizing of processAlbum (app.go:211-217): the configured
count raised to at least 1, then capped at the item count. -/
def numWorkers (cfgWorkers total : Int) : Int :=
  let n := if cfgWorkers < 1 then 1 else cfgWorkers
  if n > total then total else n

/-- baseName computed by processItem (app.go:303-305): the fixed prefix
"gp_" plus the ID with '/' and ':' replaced by '_'
(strings.ReplaceAll with single-ASCII-character patterns is exactly a
character map). -/
def dedupKey (id : String) : String :=
  "gp_" ++ String.mk (id.toList.map fun c => if c = '/' ∨ c = ':' then '_' else c)

/-- The per-run configuration flags consulted by processItem. -/
structure SyncConfig where
  strictMetadata : Bool
  skipVideos : Bool
deriving DecidableEq, Repr

/-- External actions processItem can take, in order of occurrence. -/
inductive Effect where
  | download
  | upload
deriving DecidableEq, Repr

/-- Outcome of googlephotos.DownloadMedia as consumed by processItem:
buffered size, file extension, video flag. -/
structure DownloadResult where
  size : Int
  ext : String
  isVideo : Bool
deriving DecidableEq, Repr

/-- Outcome of immich UploadAssetStream: asset id and the duplicate flag. -/
structure UploadResult where
  id : String
  isDup : Bool
deriving DecidableEq, Repr

/-- The external collaborators of processItem: DownloadMedia keyed by the
photo URL, and UploadAssetStream taking filename, size, capture time and
description. -/
structure Env where
  download : String → Except String DownloadResult
  upload : String → Int → Option Int → String → Except String UploadResult

/-- The per-item result fed back through the results channel
(app.go:126-132). -/
structure ProcResult where
  id : String
  wasUploaded : Bool
  bytesDownloaded : Int
  bytesUploaded : Int
  err : Option String
deriving DecidableEq, Repr

/-- The uploaded-item description built by processItem (app.go:343-348):
the photo description plus a "Source Album" trailer, separated by one blank
line when a description exists. -/
def buildDescription (photoDescription albumTitle albumURL : String) : String :=
  let sep := if photoDescription ≠ "" then "\n\n" else "\n"
  photoDescription ++ sep ++ "Source Album: " ++ albumTitle ++ " (" ++ albumURL ++ ")"

/-- processItem (app.go:302-373). The two cache lookups come first, then
the strict-metadata skip, then download, the skip-videos discard, and
upload with its empty-id and duplicate handling. Returns the ProcResult and
the list of external actions attempted. -/
def processItem (cfg : SyncConfig) (env : Env) (p : Photo)
    (albumTitle albumURL : String)
    (existingFiles globalAssets : List (String × String)) :
    ProcResult × List Effect :=
  let baseName := dedupKey p.ID
  match existingFiles.lookup baseName with
  | some _ =>
    ({ id := "", wasUploaded := false, bytesDownloaded := 0,
       bytesUploaded := 0, err := none }, [])
  | none =>
  match globalAssets.lookup baseName with
  | some assetId =>
    ({ id := assetId, wasUploaded := false, bytesDownloaded := 0,
       bytesUploaded := 0, err := none }, [])
  | none =>
  if cfg.strictMetadata ∧ p.TakenAt = none then
    ({ id := "", wasUploaded := false, bytesDownloaded := 0,
       bytesUploaded := 0, err := none }, [])
  else
    match env.download p.URL with
    | .error e =>
      ({ id := "", wasUploaded := false, bytesDownloaded := 0,
         bytesUploaded := 0, err := some ("error downloading item: " ++ e) },
       [.download])
    | .ok dl =>
      if dl.isVideo ∧ cfg.skipVideos then
        ({ id := "", wasUploaded := false, bytesDownloaded := dl.size,
           bytesUploaded := 0, err := none }, [.download])
      else
        let filename := baseName ++ dl.ext
        let description := buildDescription p.Description albumTitle albumURL
        match env.upload filename dl.size p.TakenAt description with
        | .error e =>
          ({ id := "", wasUploaded := false, bytesDownloaded := dl.size,
             bytesUploaded := 0,
             err := some ("error uploading " ++ filename ++ ": " ++ e) },
           [.download, .upload])
        | .ok up =>
          if up.id = "" then
            ({ id := "", wasUploaded := false, bytesDownloaded := dl.size,
               bytesUploaded := 0,
               err := some ("upload returned empty ID for " ++ filename) },
             [.download, .upload])
          else if up.isDup then
            ({ id := up.id, wasUploaded := false, bytesDownloaded := dl.size,
               bytesUploaded := dl.size, err := none }, [.download, .upload])
          else
            ({ id := up.id, wasUploaded := true, bytesDownloaded := dl.size,
               bytesUploaded := dl.size, err := none }, [.download, .upload])

/-- Counters and the album-membership batch accumulated by the
results-aggregation loop of processAlbum (app.go:203-285). -/
structure AggState where
  newAssetIds : List String
  processed : Nat
  added : Nat
  skipped : Nat
  failed : Nat
deriving DecidableEq, Repr

/-- One step of the aggregation loop (app.go:255-285): failures count as
failed; otherwise an upload counts as added, an empty id as skipped, and
every non-empty id is appended to the album-membership batch. -/
def aggStep (st : AggState) (res : ProcResult) : AggState :=
  let st := { st with processed := st.processed + 1 }
  match res.err with
  | some _ => { st with failed := st.failed + 1 }
  | none =>
    let st :=
      if res.wasUploaded then { st with added := st.added + 1 }
      else if res.id = "" then { st with skipped := st.skipped + 1 }
      else st
    if res.id ≠ "" then { st with newAssetIds := st.newAssetIds ++ [res.id] }
    else st

/-- The aggregation loop over all item results. -/
def aggregate (results : List ProcResult) : AggState :=
  results.foldl aggStep
    { newAssetIds := [], processed := 0, added := 0, skipped := 0, failed := 0 }

/-- Sequential model of the worker pool plus aggregation loop of
processAlbum: items processed in list order and results aggregated in that
order (the pool itself is unordered; the aggregate counters and the final
unordered batch add are insensitive to arrival order). -/
def runItems (cfg : SyncConfig) (env : Env) (albumTitle albumURL : String)
    (existingFiles globalAssets : List (String × String))
    (photos : List Photo) : AggState :=
  aggregate (photos.map fun p =>
    (processItem cfg env p albumTitle albumURL existingFiles globalAssets).1)

/-- The external actions taken while processing a photo list, in order. -/
def runEffects (cfg : SyncConfig) (env : Env) (albumTitle albumURL : String)
    (existingFiles globalAssets : List (String × String))
    (photos : List Photo) : List Effect :=
  (photos.map fun p =>
    (processItem cfg env p albumTitle albumURL existingFiles globalAssets).2).flatten

/-! ## Concrete three-item album scenario (spec section 8) -/

/-- Environment of the scenario: every download yields a 100-byte jpg
image, every upload returns asset id "a3" and no duplicate flag. -/
def scenarioEnv : Env where
  download := fun _ => .ok { size := 100, ext := ".jpg", isVideo := false }
  upload := fun _ _ _ _ => .ok { id := "a3", isDup := false }

/-- The three album items of the scenario. -/
def scenarioPhotos : List Photo :=
  [{ ID := "id1", URL := "u1" }, { ID := "id2", URL := "u2" },
   { ID := "id3", URL := "u3" }]

/-- Album-scoped cache of the scenario: item 1 is already in the
destination album. -/
def scenarioAlbumCache : List (String × String) := [("gp_id1", "a1")]

/-- Global cache of the scenario: item 2 was uploaded before under another
album. -/
def scenarioGlobalCache : List (String × String) := [("gp_id2", "a2")]

/-! # Theorems -/

/-- C2 counterexample: with 2 configured workers and 3 items the code sizes
the pool to 2, while the claimed formula min(W, M, 1) gives 1. -/
theorem numWorkers_not_min_with_one : numWorkers 2 3 ≠ min (min 2 3) 1 := by
  decide

/-- C2 (amended): for every configured worker count W and item count
M ≥ 1, the worker pool has size min(max(W, 1), M): the configured count is
first raised to at least 1 and then capped at the item count. -/
theorem numWorkers_eq_clamp (W M : Int) (h : 1 ≤ M) :
    numWorkers W M = min (max W 1) M := by
  simp only [numWorkers]
  split_ifs <;> omega

/-- Witness for the amended C2 at W = 2, M = 3. -/
theorem numWorkers_eq_clamp_witness :
    (1 : Int) ≤ 3 ∧ numWorkers 2 3 = min (max 2 1) 3 :=
  ⟨by decide, numWorkers_eq_clamp 2 3 (by decide)⟩

/-- C8: with zero processed items the ETA reads "calculating..."; with
p ≠ 0 processed items it is (elapsed / p) * (total - p) — in Go's
truncating int64 duration division — rendered by formatDuration. -/
theorem formatETA_spec (p t e : Int) :
    formatETA 0 t e = "calculating..." ∧
    (p ≠ 0 → formatETA p t e = formatDuration (Int.tdiv e p * (t - p))) := by
  refine ⟨by simp [formatETA], fun hp => ?_⟩
  simp [formatETA, hp]

/-- Witness for C8 at p = 2, t = 10, e = 20s. -/
theorem formatETA_spec_witness :
    (2 : Int) ≠ 0 ∧
    formatETA 2 10 (20 * 1000000000) =
      formatDuration (Int.tdiv (20 * 1000000000) 2 * (10 - 2)) :=
  ⟨by decide, (formatETA_spec 2 10 (20 * 1000000000)).2 (by decide)⟩

/-- Every photo kept by the dedup loop has a non-empty ID not in the seen
set the loop started from. -/
theorem dedupGo_mem {l : List Photo} {seen : List String} {p : Photo}
    (h : p ∈ dedupGo l seen) : p.ID ≠ "" ∧ p.ID ∉ seen := by
  induction l generalizing seen with
  | nil => simp [dedupGo] at h
  | cons q rest ih =>
    by_cases hc : q.ID ≠ "" ∧ q.ID ∉ seen
    · rw [dedupGo, if_pos hc] at h
      rcases List.mem_cons.mp h with rfl | h'
      · exact ⟨hc.1, hc.2⟩
      · have := ih h'
        exact ⟨this.1, fun hm => this.2 (List.mem_cons_of_mem _ hm)⟩
    · rw [dedupGo, if_neg hc] at h
      exact ih h

/-- The dedup loop output has pairwise distinct IDs. -/
theorem dedupGo_pairwise (l : List Photo) (seen : List String) :
    (dedupGo l seen).Pairwise (fun a b => a.ID ≠ b.ID) := by
  induction l generalizing seen with
  | nil => simp [dedupGo]
  | cons q rest ih =>
    by_cases hc : q.ID ≠ "" ∧ q.ID ∉ seen
    · rw [dedupGo, if_pos hc]
      refine List.Pairwise.cons (fun b hb hqb => ?_) (ih _)
      exact (dedupGo_mem hb).2 (by simp [hqb])
    · rw [dedupGo, if_neg hc]
      exact ih _

/-- The dedup loop output is a sublist of the input (relative order
preserved). -/
theorem dedupGo_sublist (l : List Photo) (seen : List String) :
    List.Sublist (dedupGo l seen) l := by
  induction l generalizing seen with
  | nil => simp [dedupGo]
  | cons q rest ih =>
    by_cases hc : q.ID ≠ "" ∧ q.ID ∉ seen
    · rw [dedupGo, if_pos hc]
      exact List.Sublist.cons₂ q (ih _)
    · rw [dedupGo, if_neg hc]
      exact List.Sublist.cons q (ih _)

/-- Every photo kept by the dedup loop is the first element of the input
with its ID. -/
theorem dedupGo_find {l : List Photo} {seen : List String} {p : Photo}
    (h : p ∈ dedupGo l seen) :
    l.find? (fun q => q.ID == p.ID) = some p := by
  induction l generalizing seen with
  | nil => simp [dedupGo] at h
  | cons q rest ih =>
    by_cases hc : q.ID ≠ "" ∧ q.ID ∉ seen
    · rw [dedupGo, if_pos hc] at h
      rcases List.mem_cons.mp h with rfl | h'
      · simp [List.find?_cons_of_pos]
      · have hne : q.ID ≠ p.ID := fun hq => (dedupGo_mem h').2 (by simp [hq])
        rw [List.find?_cons_of_neg _ (by simpa using fun hq => hne hq)]
        exact ih h'
    · rw [dedupGo, if_neg hc] at h
      have hp := dedupGo_mem h
      have hne : q.ID ≠ p.ID := by
        rcases not_and_or.mp hc with hq | hq
        · rw [not_not] at hq
          rw [hq]
          exact fun he => hp.1 he.symm
        · rw [not_not] at hq
          exact fun he => hp.2 (he ▸ hq)
      rw [List.find?_cons_of_neg _ (by simpa using fun hq => hne hq)]
      exact ih h

/-- Running the dedup loop over its own output changes nothing. -/
theorem dedupGo_idem (l : List Photo) (seen : List String) :
    dedupGo (dedupGo l seen) seen = dedupGo l seen := by
  induction l generalizing seen with
  | nil => simp [dedupGo]
  | cons q rest ih =>
    by_cases hc : q.ID ≠ "" ∧ q.ID ∉ seen
    · rw [dedupGo, if_pos hc, dedupGo, if_pos hc]
      exact congrArg _ (ih _)
    · rw [dedupGo, if_neg hc]
      exact ih _

/-- C9: deduplicatePhotos keeps only photos with non-empty, pairwise
distinct IDs, in input order (a sublist of the input), each being the first
occurrence of its ID, and the function is idempotent. -/
theorem deduplicatePhotos_spec (photos : List Photo) :
    (∀ p ∈ deduplicatePhotos photos, p.ID ≠ "") ∧
    (deduplicatePhotos photos).Pairwise (fun a b => a.ID ≠ b.ID) ∧
    List.Sublist (deduplicatePhotos photos) photos ∧
    (∀ p ∈ deduplicatePhotos photos,
      photos.find? (fun q => q.ID == p.ID) = some p) ∧
    deduplicatePhotos (deduplicatePhotos photos) = deduplicatePhotos photos :=
  ⟨fun _ h => (dedupGo_mem h).1, dedupGo_pairwise photos [],
   dedupGo_sublist photos [], fun _ h => dedupGo_find h,
   dedupGo_idem photos []⟩

/-- Witness for C9 on a list with an empty-ID photo and a duplicate. -/
theorem deduplicatePhotos_spec_witness :
    ({ ID := "a", URL := "u1" } : Photo).ID ≠ "" ∧
    [({ ID := "", URL := "u0" } : Photo), { ID := "a", URL := "u1" },
      { ID := "a", URL := "u2" }].find?
        (fun q => q.ID == ({ ID := "a", URL := "u1" } : Photo).ID) =
      some { ID := "a", URL := "u1" } :=
  ⟨(deduplicatePhotos_spec [{ ID := "", URL := "u0" }, { ID := "a", URL := "u1" },
      { ID := "a", URL := "u2" }]).1 _ (by decide),
   (deduplicatePhotos_spec [{ ID := "", URL := "u0" }, { ID := "a", URL := "u1" },
      { ID := "a", URL := "u2" }]).2.2.2.1 _ (by decide)⟩

/-- C10: when the photo's dedup key hits the album-scoped cache, or misses
it but hits the global cache, processItem performs no download and no
upload, and returns a nil error with zero bytes downloaded and uploaded and
no upload flag — for every configuration, in particular with strict
metadata enabled and an unknown capture time. -/
theorem processItem_cache_hit (cfg : SyncConfig) (env : Env) (p : Photo)
    (title url : String) (files global : List (String × String)) (a : String)
    (h : files.lookup (dedupKey p.ID) = some a ∨
      (files.lookup (dedupKey p.ID) = none ∧
       global.lookup (dedupKey p.ID) = some a)) :
    (processItem cfg env p title url files global).2 = [] ∧
    (processItem cfg env p title url files global).1.err = none ∧
    (processItem cfg env p title url files global).1.bytesDownloaded = 0 ∧
    (processItem cfg env p title url files global).1.bytesUploaded = 0 ∧
    (processItem cfg env p title url files global).1.wasUploaded = false := by
  rcases h with h | ⟨h1, h2⟩
  · simp [processItem, h]
  · simp [processItem, h1, h2]

/-- Witness for C10: strict metadata on, capture time unknown, global-cache
hit — still skipped with no download. -/
theorem processItem_cache_hit_witness :
    ([] : List (String × String)).lookup
        (dedupKey ({ ID := "x", URL := "u" } : Photo).ID) = none ∧
    [("gp_x", "a9")].lookup (dedupKey ({ ID := "x", URL := "u" } : Photo).ID) =
      some "a9" ∧
    (processItem { strictMetadata := true, skipVideos := false } scenarioEnv
        { ID := "x", URL := "u" } "T" "U" [] [("gp_x", "a9")]).2 = [] ∧
    (processItem { strictMetadata := true, skipVideos := false } scenarioEnv
        { ID := "x", URL := "u" } "T" "U" [] [("gp_x", "a9")]).1.err = none :=
  ⟨by decide, by decide,
   (processItem_cache_hit _ scenarioEnv _ "T" "U" [] [("gp_x", "a9")] "a9"
     (Or.inr ⟨by decide, by decide⟩)).1,
   (processItem_cache_hit _ scenarioEnv _ "T" "U" [] [("gp_x", "a9")] "a9"
     (Or.inr ⟨by decide, by decide⟩)).2.1⟩

/-- Every photo produced by the single-item parser has a non-empty URL. -/
theorem parsePhotoItem_url {item : JVal} {nowNs : Int} {p : Photo}
    (h : p ∈ parsePhotoItem item nowNs) : p.URL ≠ "" := by
  match item with
  | .str _ => simp [parsePhotoItem] at h
  | .num _ => simp [parsePhotoItem] at h
  | .other => simp [parsePhotoItem] at h
  | .arr [] => simp [parsePhotoItem] at h
  | .arr [_] => simp [parsePhotoItem] at h
  | .arr (a0 :: a1 :: rest) =>
    match a1 with
    | .str _ => simp [parsePhotoItem] at h
    | .num _ => simp [parsePhotoItem] at h
    | .other => simp [parsePhotoItem] at h
    | .arr [] => simp [parsePhotoItem] at h
    | .arr (m0 :: mrest) =>
      match m0 with
      | .num _ => simp [parsePhotoItem] at h
      | .arr _ => simp [parsePhotoItem] at h
      | .other => simp [parsePhotoItem] at h
      | .str s =>
        by_cases hs : s = ""
        · simp [parsePhotoItem, hs] at h
        · simp [parsePhotoItem, hs] at h
          subst h
          simpa using hs

/-- The single-item parser produces at most one photo per raw item. -/
theorem parsePhotoItem_length (item : JVal) (nowNs : Int) :
    (parsePhotoItem item nowNs).length ≤ 1 := by
  match item with
  | .str _ => simp [parsePhotoItem]
  | .num _ => simp [parsePhotoItem]
  | .other => simp [parsePhotoItem]
  | .arr [] => simp [parsePhotoItem]
  | .arr [_] => simp [parsePhotoItem]
  | .arr (a0 :: a1 :: rest) =>
    match a1 with
    | .str _ => simp [parsePhotoItem]
    | .num _ => simp [parsePhotoItem]
    | .other => simp [parsePhotoItem]
    | .arr [] => simp [parsePhotoItem]
    | .arr (m0 :: mrest) =>
      match m0 with
      | .num _ => simp [parsePhotoItem]
      | .arr _ => simp [parsePhotoItem]
      | .other => simp [parsePhotoItem]
      | .str s =>
        by_cases hs : s = "" <;> simp [parsePhotoItem, hs]

/-- C3: every photo in the Photos field assembled by ScrapeAlbum — the
deduplicated concatenation of parsePhotoItems over the first page and every
fetched page — has a non-empty ID and a non-empty URL; and the parser only
ever drops items (its output is never longer than its input), it cannot
fail. -/
theorem scrapeAlbum_photo_invariant (pages : List (List JVal)) (nowNs : Int) :
    (∀ p ∈ deduplicatePhotos
        ((pages.map fun l => parsePhotoItems l nowNs).flatten),
      p.ID ≠ "" ∧ p.URL ≠ "") ∧
    ∀ l : List JVal, (parsePhotoItems l nowNs).length ≤ l.length := by
  constructor
  · intro p hp
    refine ⟨(dedupGo_mem hp).1, ?_⟩
    have hmem : p ∈ (pages.map fun l => parsePhotoItems l nowNs).flatten :=
      (dedupGo_sublist _ _).subset hp
    rcases List.mem_flatten.mp hmem with ⟨l, hl, hpl⟩
    rcases List.mem_map.mp hl with ⟨page, _, rfl⟩
    rcases List.mem_flatMap.mp hpl with ⟨item, _, hitem⟩
    exact parsePhotoItem_url hitem
  · intro l
    induction l with
    | nil => simp [parsePhotoItems]
    | cons a l ih =>
      have : parsePhotoItems (a :: l) nowNs =
          parsePhotoItem a nowNs ++ parsePhotoItems l nowNs := by
        simp [parsePhotoItems]
      rw [this]
      have := parsePhotoItem_length a nowNs
      simp only [List.length_append, List.length_cons]
      omega

/-- Witness for C3 on one page holding one well-formed and one URL-less
item. -/
theorem scrapeAlbum_photo_invariant_witness :
    ({ ID := "id1", URL := "http://u" } : Photo).ID ≠ "" ∧
    ({ ID := "id1", URL := "http://u" } : Photo).URL ≠ "" :=
  (scrapeAlbum_photo_invariant
      [[JVal.arr [.str "id1", .arr [.str "http://u"]],
        JVal.arr [.str "id2", .arr [.num 3]]]] 0).1
    { ID := "id1", URL := "http://u" } (by decide)

/-- The minimum fold of extractTimestamp returns an element of the
candidate list. -/
theorem foldlMin_mem (c : Int) (rest : List Int) :
    rest.foldl (fun best x => if x < best then x else best) c ∈ c :: rest := by
  induction rest generalizing c with
  | nil => simp
  | cons x xs ih =>
    rw [List.foldl_cons]
    rcases List.mem_cons.mp (ih (if x < c then x else c)) with h | h
    · rw [h]
      split
      · simp
      · simp
    · simp [h]

/-- The minimum fold of extractTimestamp is a lower bound of the candidate
list. -/
theorem foldlMin_le (c : Int) (rest : List Int) :
    ∀ x ∈ c :: rest,
      rest.foldl (fun best x => if x < best then x else best) c ≤ x := by
  induction rest generalizing c with
  | nil => simp
  | cons y ys ih =>
    intro x hx
    rw [List.foldl_cons]
    have base : ∀ z ∈ (if y < c then y else c) :: ys,
        ys.foldl (fun best x => if x < best then x else best)
          (if y < c then y else c) ≤ z := ih _
    rcases List.mem_cons.mp hx with rfl | hx'
    · have h1 := base _ (List.mem_cons_self _ _)
      split at h1 <;> split <;> omega
    · rcases List.mem_cons.mp hx' with rfl | hx''
      · have h1 := base _ (List.mem_cons_self _ _)
        split at h1 <;> split <;> omega
      · exact base _ (List.mem_cons_of_mem _ hx'')

/-- Elements of candFilter pass the validity window. -/
theorem mem_candFilter_valid {t0 nowNs x : Int} (h : x ∈ candFilter t0 nowNs) :
    tsValid x nowNs = true := by
  by_cases hc : tsValid (normalizeTimestamp t0) nowNs = true
  · simp only [candFilter, if_pos hc] at h
    rcases List.mem_singleton.mp h with rfl
    exact hc
  · simp only [candFilter, if_neg hc] at h
    simp at h

/-- Sub-array candidates pass the validity window. -/
theorem mem_subArrayCand_valid {v : JVal} {nowNs x : Int}
    (h : x ∈ subArrayCand v nowNs) : tsValid x nowNs = true := by
  match v with
  | .str _ => simp [subArrayCand] at h
  | .num _ => simp [subArrayCand] at h
  | .other => simp [subArrayCand] at h
  | .arr [] => simp [subArrayCand] at h
  | .arr (h0 :: tl) =>
    rcases he : extractInt h0 with _ | t0
    · simp [subArrayCand, he] at h
    · simp only [subArrayCand, he] at h
      exact mem_candFilter_valid h

/-- Direct numeric candidates pass the validity window. -/
theorem mem_directCand_valid {v : JVal} {nowNs x : Int}
    (h : x ∈ directCand v nowNs) : tsValid x nowNs = true := by
  rcases he : extractInt v with _ | t0
  · simp [directCand, he] at h
  · simp only [directCand, he] at h
    exact mem_candFilter_valid h

/-- Every collected timestamp candidate passes the validity window. -/
theorem mem_timestampCandidates_valid {itemArr : List JVal} {nowNs x : Int}
    (h : x ∈ timestampCandidates itemArr nowNs) : tsValid x nowNs = true := by
  rcases List.mem_flatMap.mp h with ⟨v, _, hv⟩
  rcases List.mem_append.mp hv with hv' | hv'
  · exact mem_subArrayCand_valid hv'
  · exact mem_directCand_valid hv'

/-- C4: extractTimestamp returns none exactly when no candidate — scanned
from position 2 onward over sub-array heads and direct numeric values,
normalized, and kept only inside the window (strictly after the year-2000
floor 946684800000 ms, strictly before now + 24h) — exists, and otherwise
returns the minimum candidate, which in particular lies inside the window
(never an out-of-range or zero-epoch value). -/
theorem extractTimestamp_spec (itemArr : List JVal) (nowNs : Int) :
    (extractTimestamp itemArr nowNs = none ↔
      timestampCandidates itemArr nowNs = []) ∧
    ∀ r, extractTimestamp itemArr nowNs = some r →
      r ∈ timestampCandidates itemArr nowNs ∧
      (∀ c ∈ timestampCandidates itemArr nowNs, r ≤ c) ∧
      946684800000 < r ∧ r * 1000000 < nowNs + 86400000000000 := by
  constructor
  · rw [extractTimestamp]
    cases timestampCandidates itemArr nowNs <;> simp
  · intro r hr
    rw [extractTimestamp] at hr
    rcases hc : timestampCandidates itemArr nowNs with _ | ⟨c, rest⟩
    · rw [hc] at hr
      simp at hr
    · rw [hc] at hr
      have hr' := Option.some.inj hr
      have hmem : r ∈ c :: rest := hr' ▸ foldlMin_mem c rest
      have hle : ∀ x ∈ c :: rest, r ≤ x := hr' ▸ foldlMin_le c rest
      have hvalid := mem_timestampCandidates_valid (hc ▸ hmem)
      rw [tsValid, Bool.and_eq_true, decide_eq_true_eq, decide_eq_true_eq]
        at hvalid
      exact ⟨hc ▸ hmem, fun x hx => hle x (hc ▸ hx), hvalid.1, hvalid.2⟩

/-- Witness for C4: an item with one in-range direct value, one in-range
sub-array head (in seconds, normalized) and one out-of-range value; the
minimum in-range candidate wins. -/
theorem extractTimestamp_spec_witness :
    extractTimestamp
        [.other, .other, .num 946684800001, .arr [.num 1500000000], .num 5]
        2000000000000000000 = some 946684800001 ∧
    946684800001 ∈ timestampCandidates
        [.other, .other, .num 946684800001, .arr [.num 1500000000], .num 5]
        2000000000000000000 ∧
    (946684800000 : Int) < 946684800001 :=
  ⟨by decide,
   ((extractTimestamp_spec
       [.other, .other, .num 946684800001, .arr [.num 1500000000], .num 5]
       2000000000000000000).2 946684800001 (by decide)).1,
   ((extractTimestamp_spec
       [.other, .other, .num 946684800001, .arr [.num 1500000000], .num 5]
       2000000000000000000).2 946684800001 (by decide)).2.2.1⟩

/-- The pagination loop performs at most as many fetches as it has fuel. -/
theorem paginateLoop_count_le (fetch : String → Except Unit (List Photo × String))
    (fuel : Nat) : ∀ token photos,
      (paginateLoop fetch fuel token photos).2 ≤ fuel := by
  induction fuel with
  | zero => intro token photos; simp [paginateLoop]
  | succ n ih =>
    intro token photos
    by_cases ht : token = ""
    · simp [paginateLoop, ht]
    · rcases hf : fetch token with e | ⟨next, nextTok⟩
      · simp [paginateLoop, ht, hf]
      · by_cases hn : next = []
        · simp [paginateLoop, ht, hf, hn]
        · have := ih nextTok (photos ++ next)
          simp only [paginateLoop, ht, hf, hn, if_neg, ite_false]
          simp [hn]
          omega

/-- The pagination loop only ever appends: whatever was already fetched is
kept in the result. -/
theorem paginateLoop_extends (fetch : String → Except Unit (List Photo × String))
    (fuel : Nat) : ∀ token photos,
      ∃ s, (paginateLoop fetch fuel token photos).1 = photos ++ s := by
  induction fuel with
  | zero => intro token photos; exact ⟨[], by simp [paginateLoop]⟩
  | succ n ih =>
    intro token photos
    by_cases ht : token = ""
    · exact ⟨[], by simp [paginateLoop, ht]⟩
    · rcases hf : fetch token with e | ⟨next, nextTok⟩
      · exact ⟨[], by simp [paginateLoop, ht, hf]⟩
      · by_cases hn : next = []
        · exact ⟨[], by simp [paginateLoop, ht, hf, hn]⟩
        · rcases ih nextTok (photos ++ next) with ⟨s, hs⟩
          exact ⟨next ++ s, by simp [paginateLoop, ht, hf, hn, hs]⟩

/-- Stopping behavior of one iteration of the pagination loop when fuel
remains. -/
theorem paginateLoop_stop (fetch : String → Except Unit (List Photo × String))
    (n : Nat) (token : String) (photos : List Photo) :
    (token = "" → paginateLoop fetch (n + 1) token photos = (photos, 0)) ∧
    (token ≠ "" → ∀ e, fetch token = .error e →
      paginateLoop fetch (n + 1) token photos = (photos, 1)) ∧
    (token ≠ "" → ∀ tok', fetch token = .ok ([], tok') →
      paginateLoop fetch (n + 1) token photos = (photos, 1)) :=
  ⟨fun ht => by simp [paginateLoop, ht],
   fun ht e he => by simp [paginateLoop, ht, he],
   fun ht tok' hk => by simp [paginateLoop, ht, hk]⟩

/-- C6: the pagination phase of ScrapeAlbum performs at most maxPages (500)
page fetches, keeps everything already fetched (partial results on failure
or on hitting the ceiling), performs no fetch when the continuation token
is empty, and stops after a single fetch when that fetch fails or yields
zero items — returning the photos accumulated so far rather than an
error. -/
theorem scrapeAlbum_pagination (fetch : String → Except Unit (List Photo × String))
    (token : String) (photos : List Photo) :
    (paginate fetch token photos).2 ≤ maxPages ∧
    (∃ s, (paginate fetch token photos).1 = photos ++ s) ∧
    (token = "" → paginate fetch token photos = (photos, 0)) ∧
    (token ≠ "" → ∀ e, fetch token = .error e →
      paginate fetch token photos = (photos, 1)) ∧
    (token ≠ "" → ∀ tok', fetch token = .ok ([], tok') →
      paginate fetch token photos = (photos, 1)) := by
  refine ⟨paginateLoop_count_le fetch maxPages token photos,
    paginateLoop_extends fetch maxPages token photos, ?_, ?_, ?_⟩ <;>
      unfold paginate <;> rw [show maxPages = 499 + 1 from rfl]
  · exact (paginateLoop_stop fetch 499 token photos).1
  · exact (paginateLoop_stop fetch 499 token photos).2.1
  · exact (paginateLoop_stop fetch 499 token photos).2.2

/-- Witness for C6: empty token fetches nothing; a failing first fetch
stops after one fetch with the initial photos kept. -/
theorem scrapeAlbum_pagination_witness :
    ("" : String) = "" ∧ paginate (fun _ => .error ()) "" [] = ([], 0) ∧
    ("t" : String) ≠ "" ∧
    paginate (fun _ => .error ()) "t" scenarioPhotos = (scenarioPhotos, 1) :=
  ⟨rfl, (scrapeAlbum_pagination (fun _ => .error ()) "" []).2.2.1 rfl,
   by decide,
   (scrapeAlbum_pagination (fun _ => .error ()) "t" scenarioPhotos).2.2.2.1
     (by decide) () rfl⟩

/-- backoffSleep written with Option.getD. -/
theorem backoffSleep_getD (r : HttpResp) (i : Nat) :
    backoffSleep r i = r.retryAfterNs.getD (baseBackoffNs * ((i : Int) + 1)) := by
  cases h : r.retryAfterNs <;> simp [backoffSleep, h]

/-- When every remaining attempt returns 429, the retry loop sleeps after
each of them and returns the last one with a nil error. -/
theorem doWithRetryLoop_all429 (rs : Nat → HttpResp) (f : Nat) :
    ∀ i last, (∀ j, j < f + 1 → (rs (i + j)).status = 429) →
      doWithRetryLoop (fun n => .ok (rs n)) i (f + 1) last =
        (.ok (some (rs (i + f))),
         (List.range' i (f + 1)).map fun j => backoffSleep (rs j) j) := by
  induction f with
  | zero =>
    intro i last h
    have h0 : (rs i).status = 429 := by simpa using h 0 Nat.one_pos
    simp [doWithRetryLoop, h0, show List.range' i 1 = [i] from rfl]
  | succ f ih =>
    intro i last h
    have h0 : (rs i).status = 429 := by simpa using h 0 (Nat.succ_pos _)
    have hrec := ih (i + 1) (some (rs i)) (fun j hj => by
      have hx := h (j + 1) (Nat.succ_lt_succ hj)
      rw [(by omega : i + 1 + j = i + (j + 1))]
      exact hx)
    rw [doWithRetryLoop]
    simp only [h0, ne_eq, not_true_eq_false, ite_false, hrec]
    rw [show List.range' i (f + 1 + 1) = i :: List.range' (i + 1) (f + 1) from rfl]
    rw [(by omega : i + 1 + f = i + (f + 1))]
    rfl

/-- When the first k attempts return 429 and attempt k does not, the retry
loop returns attempt k's response after k sleeps, provided fuel remains. -/
theorem doWithRetryLoop_hit (rs : Nat → HttpResp) (k : Nat) :
    ∀ i fuel last, k < fuel → (∀ j, j < k → (rs (i + j)).status = 429) →
      (rs (i + k)).status ≠ 429 →
      doWithRetryLoop (fun n => .ok (rs n)) i fuel last =
        (.ok (some (rs (i + k))),
         (List.range' i k).map fun j => backoffSleep (rs j) j) := by
  induction k with
  | zero =>
    intro i fuel last hk h429 hnon
    rcases fuel with _ | f
    · omega
    · have hnon' : (rs i).status ≠ 429 := by simpa using hnon
      simp [doWithRetryLoop, hnon']
  | succ k ih =>
    intro i fuel last hk h429 hnon
    rcases fuel with _ | f
    · omega
    · have h0 : (rs i).status = 429 := by simpa using h429 0 (Nat.succ_pos k)
      have hrec := ih (i + 1) f (some (rs i)) (by omega)
        (fun j hj => by
          have hx := h429 (j + 1) (Nat.succ_lt_succ hj)
          rw [(by omega : i + 1 + j = i + (j + 1))]
          exact hx)
        (by
          have he : i + 1 + k = i + (k + 1) := by omega
          rw [he]
          exact hnon)
      rw [doWithRetryLoop]
      simp only [h0, ne_eq, not_true_eq_false, ite_false, hrec]
      rw [show List.range' i (k + 1) = i :: List.range' (i + 1) k from rfl]
      rw [(by omega : i + 1 + k = i + (k + 1))]
      rfl

/-- C5: over any response sequence, if the first k responses are 429 with
k below the retry ceiling (5) and the next is not, doWithRetry returns that
non-429 response; if all 5 attempts are 429 it returns the last 429 with a
nil error; and each sleep before a retry is the base backoff times the
1-based attempt number unless that response carried a parseable Retry-After
value, which takes precedence. -/
theorem doWithRetry_rateLimit (rs : Nat → HttpResp) :
    (∀ k, k < maxRetries → (∀ j, j < k → (rs j).status = 429) →
      (rs k).status ≠ 429 →
      doWithRetry (fun i => .ok (rs i)) =
        (.ok (some (rs k)),
         (List.range k).map fun j =>
           (rs j).retryAfterNs.getD (baseBackoffNs * ((j : Int) + 1)))) ∧
    ((∀ j, j < maxRetries → (rs j).status = 429) →
      doWithRetry (fun i => .ok (rs i)) =
        (.ok (some (rs (maxRetries - 1))),
         (List.range maxRetries).map fun j =>
           (rs j).retryAfterNs.getD (baseBackoffNs * ((j : Int) + 1)))) := by
  constructor
  · intro k hk h429 hnon
    have hh := doWithRetryLoop_hit rs k 0 maxRetries none hk
      (fun j hj => by simpa using h429 j hj) (by simpa using hnon)
    simp only [Nat.zero_add] at hh
    rw [doWithRetry, hh, List.range_eq_range']
    exact congrArg (Prod.mk _)
      (List.map_congr_left fun j _ => backoffSleep_getD (rs j) j)
  · intro h429
    have hh := doWithRetryLoop_all429 rs 4 0 none
      (fun j hj => by simpa using h429 j hj)
    simp only [Nat.zero_add] at hh
    rw [doWithRetry, show maxRetries = 4 + 1 from rfl, hh, List.range_eq_range']
    exact congrArg (Prod.mk _)
      (List.map_congr_left fun j _ => backoffSleep_getD (rs j) j)

/-- Witness for C5: two 429 responses then a 200; the 200 is returned after
sleeps of base times 1 and base times 2. -/
theorem doWithRetry_rateLimit_witness :
    doWithRetry (fun i => .ok (if i < 2
        then { status := 429, retryAfterNs := none }
        else { status := 200, retryAfterNs := none })) =
      (.ok (some { status := 200, retryAfterNs := none }),
       [5000000000, 10000000000]) := by
  have h := (doWithRetry_rateLimit (fun i => if i < 2
      then { status := 429, retryAfterNs := none }
      else { status := 200, retryAfterNs := none })).1 2
    (by decide)
    (fun j hj => by interval_cases j <;> rfl)
    (by decide)
  rw [h]
  rfl

/-- Full behavior of the chunking loop of AddAssetsToAlbum on every input
list: chunks sent are non-empty and at most batchSize long; on success
their concatenation is the whole input; on failure the failing chunk is the
last one sent, its error is the one returned, every earlier chunk's request
succeeded, and the chunks sent cover a prefix of the input. -/
theorem addAssetsLoop_spec (req : List String → Option String) :
    ∀ ids : List String,
      (∀ c ∈ (addAssetsLoop req ids).2, c ≠ [] ∧ c.length ≤ batchSize) ∧
      ((addAssetsLoop req ids).1 = none →
        (addAssetsLoop req ids).2.flatten = ids) ∧
      (∀ e, (addAssetsLoop req ids).1 = some e →
        ∃ cs c, (addAssetsLoop req ids).2 = cs ++ [c] ∧ req c = some e ∧
          (∀ c' ∈ cs, req c' = none) ∧
          (addAssetsLoop req ids).2.flatten <+: ids) := by
  suffices H : ∀ n (ids : List String), ids.length ≤ n →
      (∀ c ∈ (addAssetsLoop req ids).2, c ≠ [] ∧ c.length ≤ batchSize) ∧
      ((addAssetsLoop req ids).1 = none →
        (addAssetsLoop req ids).2.flatten = ids) ∧
      (∀ e, (addAssetsLoop req ids).1 = some e →
        ∃ cs c, (addAssetsLoop req ids).2 = cs ++ [c] ∧ req c = some e ∧
          (∀ c' ∈ cs, req c' = none) ∧
          (addAssetsLoop req ids).2.flatten <+: ids) by
    exact fun ids => H ids.length ids le_rfl
  intro n
  induction n with
  | zero =>
    intro ids hlen
    have hnil : ids = [] := List.length_eq_zero.mp (Nat.le_zero.mp hlen)
    subst hnil
    exact ⟨by simp [addAssetsLoop], by simp [addAssetsLoop],
      by simp [addAssetsLoop]⟩
  | succ n ih =>
    intro ids hlen
    match ids with
    | [] =>
      exact ⟨by simp [addAssetsLoop], by simp [addAssetsLoop],
        by simp [addAssetsLoop]⟩
    | a :: rest =>
      have chunkNe : (a :: rest).take batchSize ≠ [] := by
        intro hnil
        have := congrArg List.length hnil
        simp [List.length_take, batchSize] at this
      have chunkLen : ((a :: rest).take batchSize).length ≤ batchSize := by
        rw [List.length_take]
        exact Nat.min_le_left _ _
      rcases hreq : req ((a :: rest).take batchSize) with _ | e
      · -- chunk succeeded; recurse on the dropped remainder
        have hrec := ih ((a :: rest).drop batchSize) (by
          simp only [List.length_drop, List.length_cons, batchSize] at hlen ⊢
          omega)
        simp only [addAssetsLoop, hreq]
        refine ⟨?_, ?_, ?_⟩
        · intro c hc
          rcases List.mem_cons.mp hc with rfl | hc'
          · exact ⟨chunkNe, chunkLen⟩
          · exact hrec.1 c hc'
        · intro hok
          have hfl := hrec.2.1 hok
          simp only [List.flatten_cons, hfl]
          exact List.take_append_drop _ _
        · intro e he
          rcases hrec.2.2 e he with ⟨cs, c, hsent, hc, hall, hpre⟩
          refine ⟨(a :: rest).take batchSize :: cs, c, by simp [hsent], hc,
            ?_, ?_⟩
          · intro c' hc'
            rcases List.mem_cons.mp hc' with rfl | hc''
            · exact hreq
            · exact hall c' hc''
          · rcases hpre with ⟨t, ht⟩
            refine ⟨t, ?_⟩
            simp only [List.flatten_cons, List.append_assoc, ht]
            exact List.take_append_drop _ _
      · -- chunk failed; that error is returned, nothing more is sent
        simp only [addAssetsLoop, hreq]
        refine ⟨?_, by simp, ?_⟩
        · intro c hc
          rcases List.mem_singleton.mp hc with rfl
          exact ⟨chunkNe, chunkLen⟩
        · intro e' he'
          rcases Option.some.inj he' with rfl
          exact ⟨[], (a :: rest).take batchSize, by simp, hreq, by simp,
            by simpa using List.take_prefix batchSize (a :: rest)⟩

/-- C7: for every non-empty asset-id list, AddAssetsToAlbum sends
consecutive chunks of size at most batchSize (50) whose concatenation is
the input list; if a chunk's request errors, that error is returned at
once, every earlier chunk succeeded and no later chunk is sent (what was
sent is a prefix of the input). -/
theorem AddAssetsToAlbum_chunking (req : List String → Option String)
    (assetIds : List String) (h : assetIds ≠ []) :
    (∀ c ∈ (AddAssetsToAlbum req assetIds).2, c ≠ [] ∧ c.length ≤ batchSize) ∧
    ((AddAssetsToAlbum req assetIds).1 = none →
      (AddAssetsToAlbum req assetIds).2.flatten = assetIds) ∧
    (∀ e, (AddAssetsToAlbum req assetIds).1 = some e →
      ∃ cs c, (AddAssetsToAlbum req assetIds).2 = cs ++ [c] ∧
        req c = some e ∧ (∀ c' ∈ cs, req c' = none) ∧
        (AddAssetsToAlbum req assetIds).2.flatten <+: assetIds) :=
  addAssetsLoop_spec req assetIds

/-- Witness for C7: two ids with an always-succeeding request collapse to
one chunk covering the input. -/
theorem AddAssetsToAlbum_chunking_witness :
    (["a", "b"] : List String) ≠ [] ∧
    (AddAssetsToAlbum (fun _ => none) ["a", "b"]).2.flatten = ["a", "b"] :=
  ⟨by decide,
   (AddAssetsToAlbum_chunking (fun _ => none) ["a", "b"] (by decide)).2.1
     (by simp [AddAssetsToAlbum, addAssetsLoop, batchSize])⟩

/-- C1 counterexample: in the three-item scenario (one album-cache hit, one
global-cache hit, one new item) there is exactly one download plus upload,
but the album-membership batch holds only 2 asset ids, not 3: the
album-cache hit returns an empty id, so its asset id is never collected,
and it is counted as skipped rather than as a reused id. -/
theorem threeItemScenario_batch_has_two_ids :
    runItems { strictMetadata := false, skipVideos := false } scenarioEnv
        "T" "U" scenarioAlbumCache scenarioGlobalCache scenarioPhotos =
      { newAssetIds := ["a2", "a3"], processed := 3, added := 1,
        skipped := 1, failed := 0 } ∧
    (runItems { strictMetadata := false, skipVideos := false } scenarioEnv
        "T" "U" scenarioAlbumCache scenarioGlobalCache
        scenarioPhotos).newAssetIds.length ≠ 3 ∧
    runEffects { strictMetadata := false, skipVideos := false } scenarioEnv
        "T" "U" scenarioAlbumCache scenarioGlobalCache scenarioPhotos =
      [.download, .upload] := by
  decide

/-- C1 (amended): for a three-item album sync where item 1's dedup key hits
the album-scoped cache, item 2's key misses it but hits the global cache
(with a non-empty cached id), and item 3's key misses both and downloads
and uploads successfully, processing performs exactly 1 download and 1
upload, reuses 1 asset id (the global-cache one), counts the album-cache
hit as skipped with no id, and collects exactly 2 asset ids — the reused id
and the uploaded id — into the album-membership batch. -/
theorem threeItemScenario_spec
    (cfg : SyncConfig) (env : Env) (title url : String)
    (files global : List (String × String)) (p1 p2 p3 : Photo)
    (a1 a2 : String) (dl : DownloadResult) (up : UploadResult)
    (h1 : files.lookup (dedupKey p1.ID) = some a1)
    (h2 : files.lookup (dedupKey p2.ID) = none)
    (h3 : global.lookup (dedupKey p2.ID) = some a2)
    (h4 : files.lookup (dedupKey p3.ID) = none)
    (h5 : global.lookup (dedupKey p3.ID) = none)
    (h6 : ¬(cfg.strictMetadata ∧ p3.TakenAt = none))
    (h7 : env.download p3.URL = .ok dl)
    (h8 : ¬(dl.isVideo ∧ cfg.skipVideos))
    (h9 : env.upload (dedupKey p3.ID ++ dl.ext) dl.size p3.TakenAt
      (buildDescription p3.Description title url) = .ok up)
    (h10 : up.id ≠ "") (h11 : up.isDup = false) (h12 : a2 ≠ "") :
    runItems cfg env title url files global [p1, p2, p3] =
      { newAssetIds := [a2, up.id], processed := 3, added := 1,
        skipped := 1, failed := 0 } ∧
    runEffects cfg env title url files global [p1, p2, p3] =
      [.download, .upload] := by
  have e1 : processItem cfg env p1 title url files global =
      ({ id := "", wasUploaded := false, bytesDownloaded := 0,
         bytesUploaded := 0, err := none }, []) := by
    simp [processItem, h1]
  have e2 : processItem cfg env p2 title url files global =
      ({ id := a2, wasUploaded := false, bytesDownloaded := 0,
         bytesUploaded := 0, err := none }, []) := by
    simp [processItem, h2, h3]
  have e3 : processItem cfg env p3 title url files global =
      ({ id := up.id, wasUploaded := true, bytesDownloaded := dl.size,
         bytesUploaded := dl.size, err := none }, [.download, .upload]) := by
    simp [processItem, h4, h5, h6, h7, h8, h9, h10, h11]
  constructor
  · simp [runItems, e1, e2, e3, aggregate, aggStep, h12, h10]
  · simp [runEffects, e1, e2, e3]

/-- Witness for the amended C1 at the concrete scenario. -/
theorem threeItemScenario_spec_witness :
    runItems { strictMetadata := false, skipVideos := false } scenarioEnv
        "T" "U" scenarioAlbumCache scenarioGlobalCache scenarioPhotos =
      { newAssetIds := ["a2", "a3"], processed := 3, added := 1,
        skipped := 1, failed := 0 } ∧
    runEffects { strictMetadata := false, skipVideos := false } scenarioEnv
        "T" "U" scenarioAlbumCache scenarioGlobalCache scenarioPhotos =
      [.download, .upload] := by
  have h := threeItemScenario_spec
    { strictMetadata := false, skipVideos := false } scenarioEnv "T" "U"
    scenarioAlbumCache scenarioGlobalCache
    { ID := "id1", URL := "u1" } { ID := "id2", URL := "u2" }
    { ID := "id3", URL := "u3" } "a1" "a2"
    { size := 100, ext := ".jpg", isVideo := false }
    { id := "a3", isDup := false }
    (by decide) (by decide) (by decide) (by decide) (by decide) (by decide)
    rfl (by decide) rfl (by decide) (by decide) (by decide)
  exact h

end ImmichSync
